import Mathlib

/-!
Verification development for the glit user pipeline
(`glit-core/src/user.rs`).

URLs are modelled as strings (the source builds them with string
formatting).  Parsed HTML documents are modelled by the data the two CSS
selectors of `user.rs` extract from them: the text of the repository-count
element and the `href` attribute of each repository anchor; the parsing
mechanics themselves are an external library concern.  Network transport
is modelled by a function from URL to `Option Response`; `none` stands for
a transport failure, which the source turns into a panic via `unwrap`.
A Rust panic reaching the modelled function is represented by the value
`none` of the corresponding `Option` result.
-/

namespace Glit

/-- A parsed HTML document, seen through the two selectors of `user.rs`:
the repository-count element (`inner_html` of the first match, if any) and
the `href` attribute of every anchor matched by the repository selector
(`none` for an anchor without `href`). -/
structure Doc where
  countText : Option String
  repoAnchors : List (Option String)
deriving DecidableEq

/-- An HTTP response: status code and parsed body.  The source never
inspects `status`; it is carried because the specification talks about it. -/
structure Response where
  status : Nat
  body : Doc
deriving DecidableEq

/-- Configuration handed to `UserFactory::with_config`. -/
structure UserConfig where
  url : String
  all_branches : Bool
deriving DecidableEq

/-- Configuration handed to the external `RepositoryFactory`
(`glit-core/src/config.rs`, mirrored from its use sites in `user.rs`). -/
structure RepositoryConfig where
  url : String
  branchs : List String
  all_branches : Bool
deriving DecidableEq

/-- The `UserFactory` struct of `user.rs`. -/
structure UserFactory where
  url : String
  page_url : String
  all_branches : Bool
deriving DecidableEq

/-- Constant `NUMBER_OF_REPO_PER_PAGE` of `user.rs`. -/
def NUMBER_OF_REPO_PER_PAGE : Nat := 30

/-- `UserFactory::with_config`: keeps the account URL, builds the base
listing URL by appending the fixed query string, and copies
`all_branches` from the user configuration. -/
def UserFactory.with_config (user_config : UserConfig) : UserFactory :=
  { url := user_config.url
    page_url := user_config.url ++ "?tab=repositories&type=source"
    all_branches := user_config.all_branches }

/-- `UserFactory::pages_count`: number of listing pages for a repository
count, written exactly as in the source (`repo_count` is a `u32`; the
subtraction never underflows because `modulo ≤ repo_count`). -/
def pages_count (repo_count : Nat) : Nat :=
  let modulo := repo_count % NUMBER_OF_REPO_PER_PAGE
  if modulo = 0 then
    repo_count / NUMBER_OF_REPO_PER_PAGE
  else
    (repo_count - modulo) / NUMBER_OF_REPO_PER_PAGE + 1

/-- The page-URL loop of `UserFactory::create`: for `i` in
`1..=pages_count` push `format!("{}&page={}", page_url, i)`. -/
def pages_urls (page_url : String) (n : Nat) : List String :=
  (List.range n).map (fun i => page_url ++ "&page=" ++ toString (i + 1))

/-- Splitting a character list at a separator, as the Rust method
`str::split(sep)`: the result is never empty, and splitting the empty
string yields one empty field. -/
def splitOnChar (sep : Char) : List Char → List (List Char)
  | [] => [[]]
  | c :: cs =>
    let r := splitOnChar sep cs
    if c = sep then [] :: r
    else
      match r with
      | [] => [[c]]
      | g :: gs => (c :: g) :: gs

/-- Rust `endpoint_url.split('/').last().unwrap()`: the last field of a
split is always defined because a split is never empty. -/
def lastSegment (s : String) : String :=
  String.mk ((splitOnChar '/' s.data).getLastD [])

/-- `format!("{}{}/", base_url, repo_name)` of `fetch_repository_list`. -/
def buildRepoUrl (base_url repo_name : String) : String :=
  base_url ++ repo_name ++ "/"

/-- Everything after the first `://` of a character list; `none` when the
URL has no scheme separator (Rust `Url::path_segments` returns `None` for
cannot-be-a-base URLs). -/
def afterSchemeSep : List Char → Option (List Char)
  | ':' :: '/' :: '/' :: rest => some rest
  | _ :: cs => afterSchemeSep cs
  | [] => none

/-- Path segments of a URL string, following Rust `Url::path_segments`:
drop the scheme and authority, cut the query/fragment off, and split the
remaining path on `/`; a URL whose path is empty or `/` has the single
segment `""`. -/
def pathSegments (url : String) : Option (List String) :=
  (afterSchemeSep url.data).map (fun rest =>
    let path := rest.takeWhile (fun c => !(c = '?' || c = '#'))
    match splitOnChar '/' path with
    | [] => [""]
    | _authority :: segs =>
      if segs.isEmpty then [""] else segs.map String.mk)

/-- The `name` computed by `UserFactory::create`:
`url.path_segments().unwrap().next().unwrap()`; `none` models a panic. -/
def accountName (url : String) : Option String :=
  (pathSegments url).bind List.head?

/-- Modelled from the spec: validation of account URLs happens in the
configuration/CLI layer (`glit-core/src/config.rs` and the binary crate,
not among the analysed sources).  Per the data model, the account name
"is derived from the first path segment of the account URL and must be
non-empty", so an account URL is accepted exactly when that first path
segment exists and is non-empty. -/
def acceptedAccountUrl (url : String) : Bool :=
  match accountName url with
  | some n => !n.isEmpty
  | none => false

/-- Rust `str::trim` on a character list: whitespace removed from both
ends. -/
def trimChars (l : List Char) : List Char :=
  ((l.dropWhile Char.isWhitespace).reverse.dropWhile Char.isWhitespace).reverse

/-- Rust `u32::from_str`: an optional leading `+`, then one or more ASCII
digits, rejecting the empty string and values not fitting in 32 bits. -/
def parseU32 (s : String) : Option Nat :=
  let t := match s.data with
    | '+' :: r => r
    | r => r
  if t ≠ [] ∧ t.all Char.isDigit then
    let n := t.foldl (fun acc c => acc * 10 + (c.toNat - 48)) 0
    if n < 4294967296 then some n else none
  else none

/-- The count-text post-processing of `repositories_count`:
`trim()` then `replace(',', "")`. -/
def stripCount (s : String) : String :=
  String.mk ((trimChars s.data).filter (fun c => !(c == ',')))

/-- `UserFactory::repositories_count` together with its request trace:
exactly one GET against `url`; panic on transport failure, on a missing
count element and on an unparsable count text; the HTTP status of the
response is never inspected. -/
def repositories_count_run (fetch : String → Option Response) (url : String) :
    Option Nat × List String :=
  (match fetch url with
    | none => none
    | some resp =>
      match resp.body.countText with
      | none => none
      | some s => parseU32 (stripCount s),
   [url])

/-- The value returned by `UserFactory::repositories_count`. -/
def repositories_count (fetch : String → Option Response) (url : String) :
    Option Nat :=
  (repositories_count_run fetch url).1

/-- Awaiting a list of fallible units and collecting all their results:
`some` of the list of outcomes when every unit succeeds, `none` as soon as
any unit fails (a panicking task aborts the whole collection through the
`unwrap` on its join). -/
def collectResults {α β : Type} (f : α → Option β) : List α → Option (List β)
  | [] => some []
  | a :: rest =>
    match f a, collectResults f rest with
    | some b, some bs => some (b :: bs)
    | _, _ => none

/-- Extraction of repository URLs from one listing page, as the per-page
task of `fetch_repository_list`: for every matched anchor, take its
`href` (panic when absent), keep the last `/`-separated segment as the
repository name, and join it to the account base URL with a trailing
slash. -/
def extract_page_repo_urls (base_url : String) (doc : Doc) : Option (List String) :=
  collectResults
    (fun href? => href?.map (fun href => buildRepoUrl base_url (lastSegment href)))
    doc.repoAnchors

/-- One page task of `fetch_repository_list`: GET the page URL (panic on
transport failure) and extract its repository URLs. -/
def page_result (fetch : String → Option Response) (base_url : String)
    (page_url : String) : Option (List String) :=
  (fetch page_url).bind (fun resp => extract_page_repo_urls base_url resp.body)

/-- The repository-URL sequence produced by `fetch_repository_list` before
the factory calls.  `buffer_unordered` yields page results in completion
order, so the run is parameterized by `order`, the list of page indices in
the order their fetches complete (a permutation of the page index range);
the per-page URL lists are then flattened in that order. -/
def fetch_repository_list_urls (fetch : String → Option Response)
    (base_url : String) (pages : List String) (order : List Nat) :
    Option (List String) :=
  (collectResults (fun i => (pages.get? i).bind (page_result fetch base_url)) order).map
    List.flatten

/-- The `RepositoryConfig` values built inside `fetch_repository_list`:
one per discovered URL, with an empty explicit branch list and the
`all_branches` flag passed down from the factory. -/
def repo_configs (urls : List String) (all_branches : Bool) : List RepositoryConfig :=
  urls.map (fun u => { url := u, branchs := [], all_branches := all_branches })

/-- Constant `8` passed to `buffer_unordered` in `fetch_repository_list`. -/
def BUFFER_UNORDERED_CAP : Nat := 8

/-- State of the bounded page-fetch pool: page URLs not yet started, page
URLs whose fetch is in flight, and page URLs already completed. -/
structure PoolState where
  pending : List String
  inFlight : List String
  done : List String
deriving DecidableEq

/-- One scheduling step of `buffer_unordered(BUFFER_UNORDERED_CAP)`: a
pending page may start only while fewer than the cap are in flight, and
any in-flight page may complete, in any order. -/
inductive PoolStep : PoolState → PoolState → Prop
  | start (u : String) (p fl d : List String) :
      fl.length < BUFFER_UNORDERED_CAP →
      PoolStep ⟨u :: p, fl, d⟩ ⟨p, u :: fl, d⟩
  | finish (u : String) (p fl d : List String) :
      u ∈ fl →
      PoolStep ⟨p, fl, d⟩ ⟨p, fl.erase u, u :: d⟩

/-- Reachability in the pool transition system. -/
inductive PoolReachable : PoolState → PoolState → Prop
  | refl (s : PoolState) : PoolReachable s s
  | tail {s t u : PoolState} :
      PoolReachable s t → PoolStep t u → PoolReachable s u

/-- Initial pool state: every page pending, nothing started. -/
def initPool (pages : List String) : PoolState :=
  { pending := pages, inFlight := [], done := [] }

/-- A repository handle, as far as `user.rs` observes it: its `name`
field is read for the fan-in key, its `url` only identifies it.  The rest
of the external `Repository` value is opaque to this module. -/
structure Repository where
  name : String
  url : String
deriving DecidableEq

/-- The `UserCommitData` wrapper of `user.rs`, generic in the opaque
per-repository commit payload `D` (`HashMap<RepoName, RepositoryCommitData>`
in the source). -/
structure UserCommitData (D : Type) where
  repositories_data : D
deriving DecidableEq

/-- The message one extraction thread sends on the channel: the external
result of the external analyzer (`none` models its panic) paired with the repository
name.  A panicking thread sends nothing and later fails the join. -/
def workerResult {D : Type} (analyze : Repository → Option D)
    (r : Repository) : Option (String × UserCommitData D) :=
  (analyze r).map (fun d => (r.name, { repositories_data := d }))

/-- `committed_data` of `impl CommittedDataExtraction for User`:
one thread per repository; all threads are joined (`join().unwrap()`
panics the whole call if any worker panicked) and only then is the
channel drained into a `HashMap`.  The drain order `received` is the
arrival order of the messages, a permutation of what the workers send;
the result is the content of the final map in that arrival order, or
`none` when the run aborted. -/
def committed_data {D : Type} (analyze : Repository → Option D)
    (repos : List Repository)
    (received : List (String × UserCommitData D)) :
    Option (List (String × UserCommitData D)) :=
  match collectResults (workerResult analyze) repos with
  | none => none
  | some _ => some received

/-- Lookup in the `HashMap` built by `collect()` from the received pairs:
later inserts overwrite earlier ones, so the binding of a key is the last
received pair carrying it. -/
def hmLookup {V : Type} (pairs : List (String × V)) (k : String) : Option V :=
  (pairs.reverse.find? (fun p => p.1 == k)).map Prod.snd

/-- Fixture for the discovery counterexamples: two listing pages, each
with one repository anchor. -/
def fixtureFetch : String → Option Response := fun u =>
  if u = "p1" then some { status := 200, body := { countText := none, repoAnchors := [some "/acct/alpha"] } }
  else if u = "p2" then some { status := 200, body := { countText := none, repoAnchors := [some "/acct/beta"] } }
  else none

/-- Page URLs of the discovery fixture. -/
def fixturePages : List String := ["p1", "p2"]

/-- Account base URL of the discovery fixture. -/
def fixtureBase : String := "https://github.com/acct/"

/-- Fixture for the count counterexample: the server answers with status
404 but a body whose count element reads a well-formed number. -/
def fetch404 : String → Option Response := fun _ =>
  some { status := 404, body := { countText := some "1,234", repoAnchors := [] } }

/-- Fixture repositories for the extraction claims. -/
def repoA : Repository := { name := "a", url := "https://github.com/acct/a/" }

/-- Second fixture repository. -/
def repoB : Repository := { name := "b", url := "https://github.com/acct/b/" }

/-- Third fixture repository. -/
def repoC : Repository := { name := "c", url := "https://github.com/acct/c/" }

/-- Fixture analyzer whose extraction fails exactly on repository `b`. -/
def analyzeFailB : Repository → Option Nat := fun r =>
  if r.name = "b" then none else some r.name.length

/-- Fixture analyzer that always succeeds. -/
def analyzeOk : Repository → Option Nat := fun r => some r.name.length

/-- Collecting over the empty list always succeeds with the empty list. -/
theorem collectResults_nil {α β : Type} (f : α → Option β) :
    collectResults f [] = some [] := rfl

/-- Characterization of a successful collection over a cons cell. -/
theorem collectResults_cons_eq_some {α β : Type} {f : α → Option β} {x : α}
    {l : List α} {L : List β} :
    collectResults f (x :: l) = some L ↔
      ∃ b T, f x = some b ∧ collectResults f l = some T ∧ L = b :: T := by
  cases hfx : f x <;> cases hrest : collectResults f l <;>
    simp [collectResults, hfx, hrest]
  tauto

/-- A single failing unit makes the whole collection fail. -/
theorem collectResults_eq_none {α β : Type} (f : α → Option β) :
    ∀ {l : List α} {a : α}, a ∈ l → f a = none → collectResults f l = none := by
  intro l
  induction l with
  | nil => intro a ha _; cases ha
  | cons x xs ih =>
    intro a ha hf
    rcases List.mem_cons.mp ha with h | h
    · subst h
      simp [collectResults, hf]
    · cases hfx : f x <;> simp [collectResults, hfx, ih h hf]

/-- Every unit of a successful collection succeeded. -/
theorem collectResults_isSome_of {α β : Type} {f : α → Option β} {l : List α}
    {L : List β} (hL : collectResults f l = some L) {a : α} (ha : a ∈ l) :
    (f a).isSome = true := by
  cases hfa : f a with
  | none => rw [collectResults_eq_none f ha hfa] at hL; cases hL
  | some b => rfl

/-- Membership in a successful collection is membership of the
result of some unit. -/
theorem collectResults_mem_iff {α β : Type} {f : α → Option β} :
    ∀ {l : List α} {L : List β}, collectResults f l = some L →
      ∀ b : β, (b ∈ L ↔ ∃ a ∈ l, f a = some b) := by
  intro l
  induction l with
  | nil =>
    intro L hL b
    rw [collectResults_nil, Option.some_inj] at hL
    subst hL
    simp
  | cons x xs ih =>
    intro L hL b
    obtain ⟨bx, T, hfx, hrest, rfl⟩ := collectResults_cons_eq_some.mp hL
    simp only [List.mem_cons]
    constructor
    · rintro (rfl | hb)
      · exact ⟨x, Or.inl rfl, hfx⟩
      · obtain ⟨a, ha, hfa⟩ := (ih hrest b).mp hb
        exact ⟨a, Or.inr ha, hfa⟩
    · rintro ⟨a, ha | ha, hfa⟩
      · subst ha
        rw [hfx, Option.some_inj] at hfa
        exact Or.inl hfa.symm
      · exact Or.inr ((ih hrest b).mpr ⟨a, ha, hfa⟩)

/-- Collecting over a permuted unit list succeeds with a permuted result. -/
theorem collectResults_perm {α β : Type} {f : α → Option β} {l1 l2 : List α}
    (h : l1.Perm l2) :
    ∀ {L1 : List β}, collectResults f l1 = some L1 →
      ∃ L2, collectResults f l2 = some L2 ∧ L1.Perm L2 := by
  induction h with
  | nil =>
    intro L1 h1
    exact ⟨L1, h1, List.Perm.refl _⟩
  | cons x _ ih =>
    intro L1 h1
    obtain ⟨b, T, hfx, hrest, rfl⟩ := collectResults_cons_eq_some.mp h1
    obtain ⟨T2, hT2, hp⟩ := ih hrest
    exact ⟨b :: T2, collectResults_cons_eq_some.mpr ⟨b, T2, hfx, hT2, rfl⟩,
      List.Perm.cons b hp⟩
  | swap x y l =>
    intro L1 h1
    obtain ⟨b1, T, hfy, hrest, rfl⟩ := collectResults_cons_eq_some.mp h1
    obtain ⟨b2, T', hfx, hrest', rfl⟩ := collectResults_cons_eq_some.mp hrest
    exact ⟨b2 :: b1 :: T',
      collectResults_cons_eq_some.mpr
        ⟨b2, b1 :: T', hfx, collectResults_cons_eq_some.mpr ⟨b1, T', hfy, hrest', rfl⟩, rfl⟩,
      List.Perm.swap b2 b1 T'⟩
  | trans _ _ ih1 ih2 =>
    intro L1 h1
    obtain ⟨L2, h2, hp2⟩ := ih1 h1
    obtain ⟨L3, h3, hp3⟩ := ih2 h2
    exact ⟨L3, h3, hp2.trans hp3⟩

/-- The hash-map lookup is defined exactly on the keys carried by some
received pair. -/
theorem hmLookup_isSome_iff {V : Type} (pairs : List (String × V)) (k : String) :
    (hmLookup pairs k).isSome = true ↔ ∃ p ∈ pairs, p.1 = k := by
  simp [hmLookup, List.find?_isSome, List.mem_reverse]

/-- A defined hash-map lookup returns the payload of a received pair with
the looked-up key. -/
theorem hmLookup_eq_some {V : Type} {pairs : List (String × V)} {k : String}
    {v : V} (h : hmLookup pairs k = some v) :
    ∃ p ∈ pairs, p.1 = k ∧ p.2 = v := by
  unfold hmLookup at h
  obtain ⟨p, hfind, hv⟩ := Option.map_eq_some'.mp h
  refine ⟨p, ?_, ?_, hv⟩
  · exact List.mem_reverse.mp (List.mem_of_find?_eq_some hfind)
  · have := List.find?_some hfind
    simpa using this

/-- C3: for every non-negative repo_count with page_size fixed at 30,
pages_count equals the ceiling of repo_count / 30; an exact multiple of 30
yields exactly repo_count / 30 pages, and the sample points 0, 30, 31, 59
and 60 give 0, 1, 2, 2 and 2 pages. -/
theorem C3_pages_count_ceil :
    (∀ n : Nat, pages_count n = (n + 29) / 30) ∧
    (∀ n : Nat, n % 30 = 0 → pages_count n = n / 30) ∧
    pages_count 0 = 0 ∧ pages_count 30 = 1 ∧ pages_count 31 = 2 ∧
    pages_count 59 = 2 ∧ pages_count 60 = 2 := by
  refine ⟨fun n => ?_, fun n h => ?_, by decide, by decide, by decide,
    by decide, by decide⟩
  · show (if n % 30 = 0 then n / 30 else (n - n % 30) / 30 + 1) = (n + 29) / 30
    split <;> omega
  · show (if n % 30 = 0 then n / 30 else (n - n % 30) / 30 + 1) = n / 30
    split <;> omega

/-- C3 witness: applying the exact-multiple case at repo_count = 90. -/
theorem C3_pages_count_ceil_witness :
    90 % 30 = 0 ∧ pages_count 90 = 90 / 30 :=
  ⟨by decide, C3_pages_count_ceil.2.1 90 (by decide)⟩

/-- C4: however many listing pages there are, every state the bounded
page-fetch pool can reach from its initial state keeps at most
BUFFER_UNORDERED_CAP = 8 page fetches in flight. -/
theorem C4_pool_bounded (pages : List String) (s : PoolState)
    (h : PoolReachable (initPool pages) s) :
    s.inFlight.length ≤ BUFFER_UNORDERED_CAP := by
  induction h with
  | refl => simp [initPool]
  | tail _ hstep ih =>
    cases hstep with
    | start u p fl d hlt =>
      simp only [List.length_cons]
      exact hlt
    | finish u p fl d hmem =>
      calc (fl.erase u).length ≤ fl.length := (fl.erase_sublist u).length_le
        _ ≤ BUFFER_UNORDERED_CAP := ih

/-- C4 witness: the pool state reached by starting the first of two pages
is within the cap. -/
theorem C4_pool_bounded_witness :
    (PoolState.mk ["p2"] ["p1"] []).inFlight.length ≤ BUFFER_UNORDERED_CAP :=
  C4_pool_bounded ["p1", "p2"] _
    (PoolReachable.tail (PoolReachable.refl _)
      (PoolStep.start "p1" ["p2"] [] [] (by decide)))

/-- C7: for a fixed account base URL, building a repository URL from a
repository name is injective: distinct names give distinct URLs. -/
theorem C7_buildRepoUrl_injective (base_url n1 n2 : String)
    (h : buildRepoUrl base_url n1 = buildRepoUrl base_url n2) : n1 = n2 := by
  unfold buildRepoUrl at h
  have hd := congrArg String.data h
  simp only [String.data_append, List.append_assoc] at hd
  have h1 : n1.data ++ "/".data = n2.data ++ "/".data :=
    List.append_cancel_left hd
  have h2 : n1.data = n2.data := List.append_cancel_right h1
  exact String.ext h2

/-- C7 witness: the injectivity theorem applied at a concrete base URL
and name. -/
theorem C7_buildRepoUrl_injective_witness : ("alpha" : String) = "alpha" :=
  C7_buildRepoUrl_injective "https://github.com/acct/" "alpha" "alpha" rfl

/-- C8: discovery builds exactly pages_count page URLs, the k-th (0-based)
being the base listing URL of shape account_url followed by
?tab=repositories&type=source, annotated with &page= and the 1-based
index k+1. -/
theorem C8_pages_urls (acct : String) (ab : Bool) (n k : Nat) (hk : k < n) :
    (UserFactory.with_config { url := acct, all_branches := ab }).page_url
        = acct ++ "?tab=repositories&type=source" ∧
    (pages_urls (UserFactory.with_config { url := acct, all_branches := ab }).page_url n).length
        = n ∧
    (pages_urls (UserFactory.with_config { url := acct, all_branches := ab }).page_url n).get? k
        = some (acct ++ "?tab=repositories&type=source" ++ "&page=" ++ toString (k + 1)) := by
  refine ⟨rfl, by simp [pages_urls], ?_⟩
  simp [pages_urls, UserFactory.with_config, List.getElem?_map,
    List.getElem?_range hk]

/-- C8 witness: the second of three page URLs for a concrete account. -/
theorem C8_pages_urls_witness :
    (1 : Nat) < 3 ∧
    (pages_urls (UserFactory.with_config
        { url := "https://github.com/mthcht", all_branches := false }).page_url 3).get? 1
      = some ("https://github.com/mthcht" ++ "?tab=repositories&type=source"
          ++ "&page=" ++ toString (1 + 1)) :=
  ⟨by decide,
   (C8_pages_urls "https://github.com/mthcht" false 3 1 (by decide)).2.2⟩

/-- C9: on every account URL accepted by the pipeline, the account name
computed by UserFactory::create is exactly the first path segment of the
account URL, and it is non-empty. -/
theorem C9_account_name (url : String) (h : acceptedAccountUrl url = true) :
    ∃ n rest, pathSegments url = some (n :: rest) ∧
      accountName url = some n ∧ n ≠ "" := by
  cases hn : accountName url with
  | none =>
    unfold acceptedAccountUrl at h
    rw [hn] at h
    cases h
  | some n =>
    unfold acceptedAccountUrl at h
    rw [hn] at h
    have hne : n ≠ "" := by
      intro he
      subst he
      exact absurd h (by decide)
    have hn' := hn
    unfold accountName at hn'
    obtain ⟨segs, hsegs, hhead⟩ := Option.bind_eq_some.mp hn'
    cases segs with
    | nil => cases hhead
    | cons a t =>
      have ha : a = n := by simpa using hhead
      refine ⟨n, t, ?_, rfl, hne⟩
      rw [← ha]
      exact hsegs

/-- C9 witness: the theorem applied to a concrete accepted account URL. -/
theorem C9_account_name_witness :
    acceptedAccountUrl "https://github.com/mthcht" = true ∧
    ∃ n rest, pathSegments "https://github.com/mthcht" = some (n :: rest) ∧
      accountName "https://github.com/mthcht" = some n ∧ n ≠ "" :=
  ⟨by decide, C9_account_name _ (by decide)⟩

/-- C10: every RepositoryConfig built for a discovered URL carries an
empty explicit branch list and the all_branches flag copied unchanged from
the user configuration, so branch selection is identical for every
discovered repository of the account. -/
theorem C10_repo_configs (ucfg : UserConfig) (urls : List String)
    (cfg cfg' : RepositoryConfig)
    (hc : cfg ∈ repo_configs urls (UserFactory.with_config ucfg).all_branches)
    (hc' : cfg' ∈ repo_configs urls (UserFactory.with_config ucfg).all_branches) :
    cfg.branchs = [] ∧ cfg.all_branches = ucfg.all_branches ∧
      cfg.branchs = cfg'.branchs ∧ cfg.all_branches = cfg'.all_branches := by
  obtain ⟨u, hu, rfl⟩ := List.mem_map.mp hc
  obtain ⟨u', hu', rfl⟩ := List.mem_map.mp hc'
  exact ⟨rfl, rfl, rfl, rfl⟩

/-- C10 witness: the theorem applied to two concrete discovered URLs. -/
theorem C10_repo_configs_witness :
    (RepositoryConfig.mk "https://github.com/acct/alpha/" [] true)
        ∈ repo_configs ["https://github.com/acct/alpha/", "https://github.com/acct/beta/"] true ∧
    (RepositoryConfig.mk "https://github.com/acct/alpha/" [] true).branchs = [] ∧
    (RepositoryConfig.mk "https://github.com/acct/alpha/" [] true).all_branches
        = (UserConfig.mk "https://github.com/acct" true).all_branches ∧
    (RepositoryConfig.mk "https://github.com/acct/alpha/" [] true).branchs
        = (RepositoryConfig.mk "https://github.com/acct/beta/" [] true).branchs ∧
    (RepositoryConfig.mk "https://github.com/acct/alpha/" [] true).all_branches
        = (RepositoryConfig.mk "https://github.com/acct/beta/" [] true).all_branches :=
  ⟨by decide,
   C10_repo_configs (UserConfig.mk "https://github.com/acct" true)
     ["https://github.com/acct/alpha/", "https://github.com/acct/beta/"]
     _ _ (by decide) (by decide)⟩

/-- C5 counterexample: against the same unchanged two-page fixture, two
runs of discovery whose page fetches complete in different orders (both
valid completion orders, being permutations of each other) produce
differently ordered repository-URL sequences, so the ordered sequence is
not a function of the fixture alone. -/
theorem C5_order_counterexample :
    ([0, 1] : List Nat).Perm [1, 0] ∧
    fetch_repository_list_urls fixtureFetch fixtureBase fixturePages [0, 1]
      = some ["https://github.com/acct/alpha/", "https://github.com/acct/beta/"] ∧
    fetch_repository_list_urls fixtureFetch fixtureBase fixturePages [1, 0]
      = some ["https://github.com/acct/beta/", "https://github.com/acct/alpha/"] ∧
    fetch_repository_list_urls fixtureFetch fixtureBase fixturePages [0, 1]
      ≠ fetch_repository_list_urls fixtureFetch fixtureBase fixturePages [1, 0] := by
  decide

/-- C5 amended: two runs of discovery against the same unchanged fixture
produce the same multiset of repository URLs: for any two completion
orders of the page fetches, the URL sequence of a successful run is a
permutation of that of the other run. -/
theorem C5_same_fixture_perm (fetch : String → Option Response)
    (base_url : String) (pages : List String) (o1 o2 : List Nat)
    (hperm : o1.Perm o2) (l1 : List String)
    (h1 : fetch_repository_list_urls fetch base_url pages o1 = some l1) :
    ∃ l2, fetch_repository_list_urls fetch base_url pages o2 = some l2 ∧
      l1.Perm l2 := by
  unfold fetch_repository_list_urls at h1 ⊢
  obtain ⟨L1, hL1, rfl⟩ := Option.map_eq_some'.mp h1
  obtain ⟨L2, hL2, hp⟩ := collectResults_perm hperm hL1
  exact ⟨L2.flatten, by rw [hL2]; rfl, hp.flatten⟩

/-- C5 witness: the amended theorem applied to the two-page fixture and
the two completion orders of the counterexample. -/
theorem C5_same_fixture_perm_witness :
    ([0, 1] : List Nat).Perm [1, 0] ∧
    ∃ l2, fetch_repository_list_urls fixtureFetch fixtureBase fixturePages [1, 0]
        = some l2 ∧
      (["https://github.com/acct/alpha/", "https://github.com/acct/beta/"] :
        List String).Perm l2 :=
  ⟨by decide,
   C5_same_fixture_perm fixtureFetch fixtureBase fixturePages [0, 1] [1, 0]
     (by decide) _ (by decide)⟩

/-- C6 counterexample: the count fetch never inspects the HTTP status.
Against a server answering status 404 with a body whose count element
reads 1,234, repositories_count returns 1234 instead of treating the
non-success status as a fatal error. -/
theorem C6_status_counterexample :
    (fetch404 "https://github.com/acct?tab=repositories&type=source").map
        Response.status = some 404 ∧
    (404 : Nat) ≠ 200 ∧
    repositories_count fetch404
        "https://github.com/acct?tab=repositories&type=source" = some 1234 := by
  decide

/-- C6 amended: repositories_count performs exactly one GET against the
listing URL; a transport failure is fatal (no count is produced), as is a
missing count element; otherwise the result is the count text trimmed,
with thousands separators stripped, parsed as a 32-bit integer (failing
when it does not parse).  The HTTP status of the response is never
inspected. -/
theorem C6_repositories_count (fetch : String → Option Response) (url : String) :
    (repositories_count_run fetch url).2 = [url] ∧
    (fetch url = none → repositories_count fetch url = none) ∧
    (∀ resp, fetch url = some resp → resp.body.countText = none →
      repositories_count fetch url = none) ∧
    (∀ resp s, fetch url = some resp → resp.body.countText = some s →
      repositories_count fetch url = parseU32 (stripCount s)) := by
  refine ⟨rfl, ?_, ?_, ?_⟩
  · intro h
    simp [repositories_count, repositories_count_run, h]
  · intro resp h1 h2
    simp [repositories_count, repositories_count_run, h1, h2]
  · intro resp s h1 h2
    simp [repositories_count, repositories_count_run, h1, h2]

/-- C6 witness: the amended theorem applied to a failing transport and to
the 404 fixture, whose count text parses to 1234 after stripping. -/
theorem C6_repositories_count_witness :
    (repositories_count_run (fun _ => none) "u").2 = ["u"] ∧
    repositories_count (fun _ => none) "u" = none ∧
    repositories_count fetch404 "u"
      = parseU32 (stripCount "1,234") :=
  ⟨(C6_repositories_count (fun _ => none) "u").1,
   (C6_repositories_count (fun _ => none) "u").2.1 rfl,
   (C6_repositories_count fetch404 "u").2.2.2
     { status := 404, body := { countText := some "1,234", repoAnchors := [] } }
     "1,234" rfl rfl⟩

/-- C1: whenever discovery yields a finite repository sequence and every
extraction worker succeeds, the final mapping of committed_data has
exactly one key per distinct discovered repository name, each bound to
the commit data the extractor produces for that repository, for every
order in which the messages of the parallel workers arrive (any permutation of
the sent pairs). -/
theorem C1_aggregation {D : Type} (analyze : Repository → Option D)
    (repos : List Repository)
    (received L : List (String × UserCommitData D))
    (hL : collectResults (workerResult analyze) repos = some L)
    (hperm : received.Perm L)
    (hdet : ∀ r1 ∈ repos, ∀ r2 ∈ repos, r1.name = r2.name →
      analyze r1 = analyze r2) :
    committed_data analyze repos received = some received ∧
    (∀ r ∈ repos, ∀ d, analyze r = some d →
      hmLookup received r.name = some { repositories_data := d }) ∧
    (∀ k, (hmLookup received k).isSome = true ↔
      k ∈ repos.map Repository.name) := by
  refine ⟨?_, ?_, ?_⟩
  · unfold committed_data
    rw [hL]
  · intro r hr d hd
    have hpair : (r.name, ({ repositories_data := d } : UserCommitData D)) ∈ L :=
      (collectResults_mem_iff hL _).mpr ⟨r, hr, by simp [workerResult, hd]⟩
    have hrec : (r.name, ({ repositories_data := d } : UserCommitData D)) ∈ received :=
      hperm.mem_iff.mpr hpair
    have hsome : (hmLookup received r.name).isSome = true :=
      (hmLookup_isSome_iff received r.name).mpr ⟨_, hrec, rfl⟩
    obtain ⟨v, hv⟩ := Option.isSome_iff_exists.mp hsome
    obtain ⟨p, hpmem, hpk, hpv⟩ := hmLookup_eq_some hv
    have hpL : p ∈ L := hperm.mem_iff.mp hpmem
    obtain ⟨r', hr', hw⟩ := (collectResults_mem_iff hL p).mp hpL
    obtain ⟨d', hd', hpe⟩ := Option.map_eq_some'.mp hw
    have hname : r'.name = r.name := by
      rw [← hpe] at hpk
      exact hpk
    have heq : analyze r' = analyze r := hdet r' hr' r hr hname
    rw [hd] at heq
    rw [heq] at hd'
    have hdd : d' = d := (Option.some_inj.mp hd').symm
    rw [hv, ← hpv, ← hpe]
    simp [hdd]
  · intro k
    constructor
    · intro hs
      obtain ⟨p, hpmem, hpk⟩ := (hmLookup_isSome_iff received k).mp hs
      have hpL : p ∈ L := hperm.mem_iff.mp hpmem
      obtain ⟨r', hr', hw⟩ := (collectResults_mem_iff hL p).mp hpL
      obtain ⟨d', hd', hpe⟩ := Option.map_eq_some'.mp hw
      have hrk : r'.name = k := by
        rw [← hpe] at hpk
        exact hpk
      exact List.mem_map.mpr ⟨r', hr', hrk⟩
    · intro hk
      obtain ⟨r, hr, hrk⟩ := List.mem_map.mp hk
      have hsome := collectResults_isSome_of hL hr
      obtain ⟨p, hp⟩ := Option.isSome_iff_exists.mp hsome
      have hpL : p ∈ L := (collectResults_mem_iff hL p).mpr ⟨r, hr, hp⟩
      have hpr : p ∈ received := hperm.mem_iff.mpr hpL
      obtain ⟨d', hd', hpe⟩ := Option.map_eq_some'.mp hp
      refine (hmLookup_isSome_iff received k).mpr ⟨p, hpr, ?_⟩
      rw [← hpe]
      exact hrk

/-- C1 witness: three repositories a, b, c with a deterministic analyzer;
the messages arrive in a different order than the workers were started,
and the theorem is applied to that arrival order. -/
theorem C1_aggregation_witness :
    collectResults (workerResult analyzeOk) [repoA, repoB, repoC]
      = some [("a", UserCommitData.mk 1), ("b", UserCommitData.mk 1),
          ("c", UserCommitData.mk 1)] ∧
    ([("c", UserCommitData.mk 1), ("b", UserCommitData.mk 1),
        ("a", UserCommitData.mk 1)].Perm
      [("a", UserCommitData.mk 1), ("b", UserCommitData.mk 1),
        ("c", UserCommitData.mk 1)]) ∧
    (committed_data analyzeOk [repoA, repoB, repoC]
        [("c", UserCommitData.mk 1), ("b", UserCommitData.mk 1),
          ("a", UserCommitData.mk 1)]
      = some [("c", UserCommitData.mk 1), ("b", UserCommitData.mk 1),
          ("a", UserCommitData.mk 1)] ∧
    (∀ r ∈ [repoA, repoB, repoC], ∀ d, analyzeOk r = some d →
      hmLookup [("c", UserCommitData.mk 1), ("b", UserCommitData.mk 1),
          ("a", UserCommitData.mk 1)] r.name
        = some (UserCommitData.mk d)) ∧
    (∀ k, (hmLookup [("c", UserCommitData.mk 1), ("b", UserCommitData.mk 1),
          ("a", UserCommitData.mk 1)] k).isSome
        = true ↔ k ∈ [repoA, repoB, repoC].map Repository.name)) :=
  ⟨by decide, by decide,
   C1_aggregation analyzeOk [repoA, repoB, repoC]
     [("c", UserCommitData.mk 1), ("b", UserCommitData.mk 1),
       ("a", UserCommitData.mk 1)]
     [("a", UserCommitData.mk 1), ("b", UserCommitData.mk 1),
       ("c", UserCommitData.mk 1)]
     (by decide) (by decide) (by decide)⟩

/-- C2 counterexample: with extraction failing exactly on repository b,
committed_data aborts the whole run and produces no mapping at all; the
data of repositories a and c is not returned and no separate error
collection exists. -/
theorem C2_abort_counterexample :
    analyzeFailB repoB = none ∧
    analyzeFailB repoA = some 1 ∧ analyzeFailB repoC = some 1 ∧
    committed_data analyzeFailB [repoA, repoB, repoC]
      [("a", { repositories_data := 1 }), ("c", { repositories_data := 1 })]
      = none := by
  decide

/-- C2 amended: if the commit extraction for any one repository fails,
committed_data aborts the whole run (the join on the panicked worker
panics before the channel is drained): no mapping is produced, for every
arrival order of the messages of the other workers. -/
theorem C2_extraction_failure_aborts {D : Type} (analyze : Repository → Option D)
    (repos : List Repository)
    (received : List (String × UserCommitData D))
    (r : Repository) (hr : r ∈ repos) (hf : analyze r = none) :
    committed_data analyze repos received = none := by
  unfold committed_data
  rw [collectResults_eq_none (workerResult analyze) hr
    (by simp [workerResult, hf])]

/-- C2 witness: the amended theorem applied to the failing-b fixture. -/
theorem C2_extraction_failure_aborts_witness :
    repoB ∈ [repoA, repoB, repoC] ∧ analyzeFailB repoB = none ∧
    committed_data analyzeFailB [repoA, repoB, repoC]
      ([] : List (String × UserCommitData Nat)) = none :=
  ⟨by decide, by decide,
   C2_extraction_failure_aborts analyzeFailB [repoA, repoB, repoC] [] repoB
     (by decide) (by decide)⟩

end Glit
